import Mathlib

/-!
Verification of the claude-code-docs utility (install.py, claude-docs-helper.py,
uninstall.py) against its natural-language specification.

The Python code is shallowly embedded: Python strings are modeled as `List Char`,
subprocess and filesystem effects are modeled by environments recording the
outcome of each external call (git exit status, captured output, operator
replies, file existence), and the observable behaviour of each procedure is a
pure function from such an environment to a result record holding the return
value, the ordered trace of state-changing commands issued, and the messages
printed (one constructor per print statement in the source).
-/

/-- Python strings are modeled as lists of characters. -/
abbrev PyStr := List Char

/-- Python's substring test: `needle in hay`. -/
def substr (needle : PyStr) : PyStr → Bool
  | [] => needle.isEmpty
  | c :: rest => needle.isPrefixOf (c :: rest) || substr needle rest

/-- Python `str.lower()` (the code only ever lowercases ASCII). -/
def pyLower (s : PyStr) : PyStr := s.map Char.toLower

/-- Split a character list at every occurrence of `sep`. -/
def splitOnChar (sep : Char) : PyStr → List PyStr
  | [] => [[]]
  | c :: rest =>
    let r := splitOnChar sep rest
    if c == sep then [] :: r
    else
      match r with
      | [] => [[c]]
      | g :: gs => (c :: g) :: gs

/-- Python `str.splitlines()` on the stripped stdout of `git status --porcelain`
(the code strips captured output, so the text has no trailing newline). -/
def pySplitLines (s : PyStr) : List PyStr :=
  if s.isEmpty then [] else splitOnChar '\n' s

/-- A list is non-empty exactly when `isEmpty` is `false`. -/
theorem isEmpty_false_of_ne_nil {α : Type} {l : List α} (h : l ≠ []) :
    l.isEmpty = false := by
  cases l with
  | nil => exact absurd rfl h
  | cons a as => rfl

/-! ## install.py, `safe_git_update` (lines 184-247) -/

/-- The git invocations `safe_git_update` can issue, in source order:
`rev-parse --abbrev-ref HEAD`, `pull --quiet origin main`, `fetch origin main`,
`status --porcelain`, `merge --abort`, `rebase --abort`,
`reset --hard origin/main`, `clean -fd`. -/
inductive GitCmd where
  | revParse
  | pull
  | fetch
  | statusCmd
  | mergeAbort
  | rebaseAbort
  | resetHard
  | cleanFd
deriving DecidableEq

/-- One constructor per print statement reachable from `safe_git_update`.
`promptShown` is the `input("Continue and discard local changes? [y/N]: ")`
prompt, `cancelled` is "Installation cancelled. Your local changes are
preserved.", `updatedClean` is "  [OK] Updated successfully to clean state". -/
inductive UpdMsg where
  | switching (frm tgt : PyStr)
  | updatingBranch (b : PyStr)
  | updatingLatest
  | tryingHarder
  | fetchWarn
  | localChangesWarn
  | promptShown
  | cancelled
  | updatingClean
  | updatedClean
deriving DecidableEq

/-- Environment for one `safe_git_update` run: the outcome of each git call the
code may make and the operator's reply to the confirmation prompt. -/
structure UpdEnv where
  branchOk : Bool
  branch : PyStr
  pullOk : Bool
  fetchOk : Bool
  statusOk : Bool
  status : PyStr
  response : PyStr
deriving DecidableEq

/-- Result of a `safe_git_update` run: the boolean the function returns, the git
commands issued in order, whether the confirmation prompt was reached, and the
messages printed. -/
structure UpdOut where
  success : Bool
  cmds : List GitCmd
  prompted : Bool
  printed : List UpdMsg
deriving DecidableEq

/-- The filter in install.py line 222: a porcelain status line is treated as
manifest churn when it mentions `docs_manifest.json` (the code also checks the
backslashed form, which is subsumed but transliterated here). -/
def isManifestLine (l : PyStr) : Bool :=
  substr "docs_manifest.json".data l || substr "docs\\docs_manifest.json".data l

/-- The two prints before the pull (install.py lines 195-201): the branch echo
and "Updating to latest version...". -/
def branchBanner (e : UpdEnv) : List UpdMsg :=
  let currentBranch := if e.branchOk then e.branch else "unknown".data
  (if currentBranch ≠ "main".data then [UpdMsg.switching currentBranch "main".data]
   else [UpdMsg.updatingBranch "main".data]) ++ [UpdMsg.updatingLatest]

/-- install.py `safe_git_update`: try `git pull`; on failure fetch (giving up if
the fetch fails), inspect `git status --porcelain`, prompt before discarding
non-manifest local changes (`response.lower() != 'y'` cancels), then abort any
merge/rebase, hard-reset to `origin/main` and `clean -fd`. -/
def safe_git_update (e : UpdEnv) : UpdOut :=
  let p0 := branchBanner e
  if e.pullOk then
    { success := true, cmds := [GitCmd.revParse, GitCmd.pull], prompted := false, printed := p0 }
  else
    let p1 := p0 ++ [UpdMsg.tryingHarder]
    if e.fetchOk = false then
      { success := false, cmds := [GitCmd.revParse, GitCmd.pull, GitCmd.fetch],
        prompted := false, printed := p1 ++ [UpdMsg.fetchWarn] }
    else
      let hasChanges := e.statusOk && !e.status.isEmpty
      let nonManifest := (pySplitLines e.status).filter (fun l => !isManifestLine l)
      let base := [GitCmd.revParse, GitCmd.pull, GitCmd.fetch, GitCmd.statusCmd]
      let destroy := fun (prompted : Bool) (pp : List UpdMsg) =>
        ({ success := true,
           cmds := base ++ [GitCmd.mergeAbort, GitCmd.rebaseAbort, GitCmd.resetHard, GitCmd.cleanFd],
           prompted := prompted,
           printed := pp ++ [UpdMsg.updatingClean, UpdMsg.updatedClean] } : UpdOut)
      if hasChanges then
        if !nonManifest.isEmpty then
          if !(pyLower e.response == "y".data) then
            { success := false, cmds := base, prompted := true,
              printed := p1 ++ [UpdMsg.localChangesWarn, UpdMsg.promptShown, UpdMsg.cancelled] }
          else destroy true (p1 ++ [UpdMsg.localChangesWarn, UpdMsg.promptShown])
        else destroy false p1
      else destroy false p1

/-- The success banner never occurs among the pre-pull prints. -/
theorem updatedClean_not_mem_branchBanner (e : UpdEnv) :
    UpdMsg.updatedClean ∉ branchBanner e := by
  unfold branchBanner
  split <;> simp
  split <;> simp

/-- Run in which the pull fails, the fetch succeeds, a non-manifest file is
modified, and the operator replies "Y". -/
def updEnvY : UpdEnv :=
  { branchOk := true, branch := "main".data, pullOk := false, fetchOk := true,
    statusOk := true, status := " M README.md".data, response := "Y".data }

/-- Claim C1, counterexample. At `updEnvY` the pull fails, the fetch succeeds,
the porcelain status has a line not referring to docs_manifest.json, and the
reply "Y" is anything other than 'y'; the claim then demands failure with no
state-changing git command, but the code lowercases the reply, proceeds, issues
`reset --hard`, and returns success. -/
theorem safe_git_update_uppercase_reply_counterexample :
    updEnvY.pullOk = false ∧ updEnvY.fetchOk = true ∧
    (∃ l ∈ pySplitLines updEnvY.status, isManifestLine l = false) ∧
    updEnvY.response ≠ "y".data ∧
    (safe_git_update updEnvY).prompted = true ∧
    (safe_git_update updEnvY).success = true ∧
    GitCmd.resetHard ∈ (safe_git_update updEnvY).cmds := by decide

/-- Claim C1, amended: with "anything other than 'y'" weakened to "anything
whose lowercasing is not 'y'" (the code compares `response.lower() != 'y'`).
In every run where the pull fails, the fetch succeeds and the porcelain status
has a non-manifest line, the operator is prompted; if the lowercased reply is
not 'y' the function returns failure, issues no state-changing git command
(its command trace stops at the read-only status query), and reports
cancellation rather than a clean update. -/
theorem safe_git_update_decline_cancels (e : UpdEnv)
    (hpull : e.pullOk = false) (hfetch : e.fetchOk = true) (hstat : e.statusOk = true)
    (hline : ∃ l ∈ pySplitLines e.status, isManifestLine l = false)
    (hresp : pyLower e.response ≠ "y".data) :
    (safe_git_update e).prompted = true ∧
    (safe_git_update e).success = false ∧
    (safe_git_update e).cmds = [GitCmd.revParse, GitCmd.pull, GitCmd.fetch, GitCmd.statusCmd] ∧
    UpdMsg.cancelled ∈ (safe_git_update e).printed ∧
    UpdMsg.updatedClean ∉ (safe_git_update e).printed := by
  obtain ⟨l, hl, hml⟩ := hline
  have hne : e.status.isEmpty = false := by
    cases hs : e.status.isEmpty
    · rfl
    · exfalso
      rw [pySplitLines, hs] at hl
      simp at hl
  have hnm : ((pySplitLines e.status).filter (fun l => !isManifestLine l)).isEmpty = false := by
    apply isEmpty_false_of_ne_nil
    intro hcontra
    have := List.filter_eq_nil_iff.mp hcontra l hl
    simp [hml] at this
  have hrb : (pyLower e.response == "y".data) = false := beq_eq_false_iff_ne.mpr hresp
  have hbb := updatedClean_not_mem_branchBanner e
  simp only [safe_git_update, hpull, hfetch, hstat, hne, hnm, hrb]
  simp [hbb]

/-- Run in which the pull fails, the fetch succeeds, a non-manifest file is
modified, and the operator replies "n". -/
def updEnvDecline : UpdEnv :=
  { branchOk := true, branch := "main".data, pullOk := false, fetchOk := true,
    statusOk := true, status := " M README.md".data, response := "n".data }

/-- Witness for the amended claim C1 at the concrete declining run. -/
theorem safe_git_update_decline_cancels_witness :
    (safe_git_update updEnvDecline).success = false ∧
    (safe_git_update updEnvDecline).cmds =
      [GitCmd.revParse, GitCmd.pull, GitCmd.fetch, GitCmd.statusCmd] :=
  ⟨(safe_git_update_decline_cancels updEnvDecline rfl rfl rfl (by decide) (by decide)).2.1,
   (safe_git_update_decline_cancels updEnvDecline rfl rfl rfl (by decide) (by decide)).2.2.1⟩

/-- Claim C2. In every run where the pull fails, the fetch succeeds, and every
porcelain status line refers to docs_manifest.json, no confirmation prompt is
issued and the procedure proceeds directly to abort any in-progress
merge/rebase, hard-reset to the remote branch tip and remove untracked files,
returning success. -/
theorem safe_git_update_manifest_only_resets (e : UpdEnv)
    (hpull : e.pullOk = false) (hfetch : e.fetchOk = true)
    (hman : ∀ l ∈ pySplitLines e.status, isManifestLine l = true) :
    (safe_git_update e).prompted = false ∧
    (safe_git_update e).success = true ∧
    (safe_git_update e).cmds = [GitCmd.revParse, GitCmd.pull, GitCmd.fetch, GitCmd.statusCmd,
      GitCmd.mergeAbort, GitCmd.rebaseAbort, GitCmd.resetHard, GitCmd.cleanFd] := by
  have hnm : (pySplitLines e.status).filter (fun l => !isManifestLine l) = [] :=
    List.filter_eq_nil_iff.mpr (fun l hl => by simp [hman l hl])
  simp only [safe_git_update, hpull, hfetch, hnm]
  simp

/-- Run in which the pull fails, the fetch succeeds, and only the manifest is
modified. -/
def updEnvManifest : UpdEnv :=
  { branchOk := true, branch := "main".data, pullOk := false, fetchOk := true,
    statusOk := true, status := " M docs/docs_manifest.json".data, response := [] }

/-- Witness for claim C2 at the concrete manifest-only run. -/
theorem safe_git_update_manifest_only_resets_witness :
    (safe_git_update updEnvManifest).prompted = false ∧
    (safe_git_update updEnvManifest).success = true :=
  ⟨(safe_git_update_manifest_only_resets updEnvManifest rfl rfl (by decide)).1,
   (safe_git_update_manifest_only_resets updEnvManifest rfl rfl (by decide)).2.1⟩

/-! ## claude-docs-helper.py, `hook_check` (lines 226-246), `check_for_updates`
(lines 61-78) and `pull_updates` (lines 81-91) -/

/-- The external actions `hook_check` can perform: touching the last-check
marker file, and the git calls made by `check_for_updates` / `pull_updates`
(`fetch --quiet`, `rev-list --count HEAD..origin/main`, `pull --quiet`). -/
inductive HookAct where
  | touchMarker
  | gitFetch
  | gitRevList
  | gitPull
deriving DecidableEq

/-- One constructor per print statement reachable from `hook_check`: the three
prints of `pull_updates` ("[UPDATE] Updating documentation...",
"[OK] Documentation updated successfully", "[WARNING]  Update failed: ..."). -/
inductive HookMsg where
  | updateBanner
  | updateOk
  | updateFailed (msg : PyStr)
deriving DecidableEq

/-- Environment for one `hook_check` run: marker-file state, the current clock,
and the outcome of each git call. Times are seconds; `statOk` is whether
reading the marker's modification time raises. -/
structure HookEnv where
  markerExists : Bool
  statOk : Bool
  markerMtime : Int
  now : Int
  fetchOk : Bool
  revListOk : Bool
  behindOut : PyStr
  pullOk : Bool
  pullErr : PyStr
deriving DecidableEq

/-- `CHECK_INTERVAL = timedelta(hours=3)`, in seconds. -/
def checkInterval : Int := 10800

/-- Python `str.isdigit()` on ASCII git output. -/
def pyIsDigit (s : PyStr) : Bool := !s.isEmpty && s.all Char.isDigit

/-- `int(s)` for a digit-only string. -/
def digitsToNat (s : PyStr) : Nat := s.foldl (fun acc c => acc * 10 + (c.toNat - 48)) 0

/-- helper line 73: `behind_count = int(behind) if behind.isdigit() else 0`. -/
def behindCount (e : HookEnv) : Nat :=
  if pyIsDigit e.behindOut then digitsToNat e.behindOut else 0

/-- The prints of `pull_updates` (helper lines 83-90). -/
def pull_updates_printed (e : HookEnv) : List HookMsg :=
  HookMsg.updateBanner ::
    (if e.pullOk then [HookMsg.updateOk] else [HookMsg.updateFailed e.pullErr])

/-- Result of a `hook_check` run: the external actions in order and the
messages printed. -/
structure HookOut where
  acts : List HookAct
  printed : List HookMsg
deriving DecidableEq

/-- helper lines 229-237: `should_check` is `False` exactly when the marker
file exists, its modification time is readable, and it is less than
`CHECK_INTERVAL` old. -/
def shouldCheckB (e : HookEnv) : Bool :=
  if e.markerExists then
    (if e.statOk then !(decide (e.now - e.markerMtime < checkInterval)) else true)
  else true

/-- helper `hook_check`: skip everything when the marker is fresh; otherwise
touch the marker first, then fetch, query the behind count, and pull when
behind. -/
def hook_check (e : HookEnv) : HookOut :=
  if shouldCheckB e then
    if e.fetchOk then
      if e.revListOk then
        if behindCount e > 0 then
          { acts := [HookAct.touchMarker, HookAct.gitFetch, HookAct.gitRevList, HookAct.gitPull],
            printed := pull_updates_printed e }
        else
          { acts := [HookAct.touchMarker, HookAct.gitFetch, HookAct.gitRevList], printed := [] }
      else
        { acts := [HookAct.touchMarker, HookAct.gitFetch, HookAct.gitRevList], printed := [] }
    else
      { acts := [HookAct.touchMarker, HookAct.gitFetch], printed := [] }
  else
    { acts := [], printed := [] }

/-- Claim C3. An invocation that finds the marker fresh (exists, readable,
less than 3 hours old) performs no external action at all — no fetch, no
behind-count query, no pull, and no marker touch; and any invocation that
performs any action at all touches the marker first. -/
theorem hook_check_throttle_and_marker_first (e : HookEnv) :
    (e.markerExists = true → e.statOk = true → e.now - e.markerMtime < checkInterval →
      (hook_check e).acts = [] ∧ (hook_check e).printed = []) ∧
    ((hook_check e).acts ≠ [] → (hook_check e).acts.head? = some HookAct.touchMarker) := by
  constructor
  · intro hm hs hlt
    have hsc : shouldCheckB e = false := by simp [shouldCheckB, hm, hs, hlt]
    simp [hook_check, hsc]
  · intro hne
    cases hsc : shouldCheckB e
    · exact absurd (by simp [hook_check, hsc]) hne
    · by_cases hb : behindCount e > 0 <;> cases hf : e.fetchOk <;> cases hr : e.revListOk <;>
        simp [hook_check, hsc, hf, hr, hb]

/-- Run with a fresh marker (100 seconds old). -/
def hookEnvRecent : HookEnv :=
  { markerExists := true, statOk := true, markerMtime := 0, now := 100,
    fetchOk := true, revListOk := true, behindOut := "1".data, pullOk := true, pullErr := [] }

/-- Witness for claim C3 at the concrete fresh-marker run. -/
theorem hook_check_throttle_and_marker_first_witness :
    (hook_check hookEnvRecent).acts = [] ∧ (hook_check hookEnvRecent).printed = [] :=
  (hook_check_throttle_and_marker_first hookEnvRecent).1 rfl rfl (by decide)

/-- Run with no marker and one commit behind, where the pull succeeds. -/
def hookEnvBehind : HookEnv :=
  { markerExists := false, statOk := true, markerMtime := 0, now := 0,
    fetchOk := true, revListOk := true, behindOut := "1".data, pullOk := true, pullErr := [] }

/-- Claim C4, counterexample. With first argument 'hook-check' the only code
run is `hook_check`; at `hookEnvBehind` the throttle admits the check, one
update is found, and `pull_updates` prints "[UPDATE] Updating documentation..."
and "[OK] Documentation updated successfully" — the process output is not
empty, contradicting "produces no output ... regardless of whether updates are
found and applied". -/
theorem hook_check_prints_counterexample :
    (hook_check hookEnvBehind).printed = [HookMsg.updateBanner, HookMsg.updateOk] ∧
    (hook_check hookEnvBehind).printed ≠ [] := by decide

/-- Claim C4, amended: the hook-check entry point produces no output except
when an update is actually pulled; every run that issues no `git pull` prints
nothing, and every run that pulls prints the `pull_updates` progress messages,
starting with "[UPDATE] Updating documentation...". -/
theorem hook_check_silent_unless_pull (e : HookEnv) :
    (HookAct.gitPull ∉ (hook_check e).acts → (hook_check e).printed = []) ∧
    (HookAct.gitPull ∈ (hook_check e).acts →
      (hook_check e).printed.head? = some HookMsg.updateBanner) := by
  by_cases hb : behindCount e > 0 <;>
    cases hsc : shouldCheckB e <;> cases hf : e.fetchOk <;> cases hr : e.revListOk <;>
    constructor <;> intro h <;>
    simp_all [hook_check, pull_updates_printed]

/-- Witness for the amended claim C4 at the concrete fresh-marker run (no pull
is issued, so nothing is printed). -/
theorem hook_check_silent_unless_pull_witness :
    (hook_check hookEnvRecent).printed = [] :=
  (hook_check_silent_unless_pull hookEnvRecent).1 (by decide)

/-! ## claude-docs-helper.py, `list_topics` (lines 118-127), `read_doc`
(lines 130-155) and the topic branch of `main` (lines 319-356) -/

/-- One file of the docs directory, in directory listing order: its stem (the
filename without `.md`), whether `read_text` succeeds, its stored text, and
the exception message used when reading raises. -/
structure DocFile where
  stem : PyStr
  readOk : Bool
  text : PyStr
  errMsg : PyStr
deriving DecidableEq

/-- helper `read_doc` lines 132-147, the file selection: exact stem match
(`DOCS_DIR / f"{topic}.md"` exists), then the first case-insensitive stem
match, then the first file whose lowercased stem contains the lowercased
topic. -/
def choose_doc (files : List DocFile) (topic : PyStr) : Option DocFile :=
  match files.find? (fun f => f.stem == topic) with
  | some f => some f
  | none =>
    match files.find? (fun f => pyLower f.stem == pyLower topic) with
    | some f => some f
    | none => files.find? (fun f => substr (pyLower topic) (pyLower f.stem))

/-- helper `read_doc` lines 149-155: read the chosen file, turning a read
exception into the string "Error reading file: <message>"; `none` when no
rule matched. -/
def read_doc (files : List DocFile) (topic : PyStr) : Option PyStr :=
  match choose_doc files topic with
  | some f => some (if f.readOk then f.text else "Error reading file: ".data ++ f.errMsg)
  | none => none

/-- The resolution policy as the specification words it: if a file with the
topic's exact stem exists, the first such file is chosen; otherwise, if some
stem matches case-insensitively, the first such file; otherwise, if some stem
contains the topic case-insensitively, the first such file; otherwise
not-found. -/
def choose_doc_spec (files : List DocFile) (topic : PyStr) : Option DocFile :=
  if files.any (fun f => f.stem == topic) then
    files.find? (fun f => f.stem == topic)
  else if files.any (fun f => pyLower f.stem == pyLower topic) then
    files.find? (fun f => pyLower f.stem == pyLower topic)
  else if files.any (fun f => substr (pyLower topic) (pyLower f.stem)) then
    files.find? (fun f => substr (pyLower topic) (pyLower f.stem))
  else none

/-- `read_doc` as the specification words it, built on `choose_doc_spec`. -/
def read_doc_spec (files : List DocFile) (topic : PyStr) : Option PyStr :=
  match choose_doc_spec files topic with
  | some f => some (if f.readOk then f.text else "Error reading file: ".data ++ f.errMsg)
  | none => none

/-- If `find?` comes up empty then `any` is false. -/
theorem any_eq_false_of_find?_none {α : Type} {p : α → Bool} {l : List α}
    (h : l.find? p = none) : l.any p = false := by
  cases hb : l.any p
  · rfl
  · obtain ⟨a, ha, hp⟩ := List.any_eq_true.mp hb
    have := List.find?_eq_none.mp h a ha
    simp [hp] at this

/-- If `find?` succeeds then `any` is true. -/
theorem any_eq_true_of_find?_some {α : Type} {p : α → Bool} {l : List α} {a : α}
    (h : l.find? p = some a) : l.any p = true :=
  List.any_eq_true.mpr ⟨a, List.mem_of_find?_eq_some h, List.find?_some h⟩

/-- Guarding `find?` by `any` changes nothing. -/
theorem find?_any_eq {α : Type} (p : α → Bool) (l : List α) :
    (if l.any p then l.find? p else none) = l.find? p := by
  cases h : l.find? p with
  | some a =>
    simp [any_eq_true_of_find?_some h, h]
  | none =>
    simp [any_eq_false_of_find?_none h, h]

/-- The transliterated selection agrees with the specification's wording. -/
theorem choose_doc_eq_spec (files : List DocFile) (topic : PyStr) :
    choose_doc files topic = choose_doc_spec files topic := by
  unfold choose_doc choose_doc_spec
  cases h1 : files.find? (fun f => f.stem == topic) with
  | some f =>
    have ha1 := any_eq_true_of_find?_some h1
    simp [h1, ha1]
  | none =>
    have ha1 := any_eq_false_of_find?_none h1
    cases h2 : files.find? (fun f => pyLower f.stem == pyLower topic) with
    | some f =>
      have ha2 := any_eq_true_of_find?_some h2
      simp [h1, h2, ha1, ha2]
    | none =>
      have ha2 := any_eq_false_of_find?_none h2
      simp only [h1, h2, ha1, ha2, Bool.false_eq_true, if_false]
      exact (find?_any_eq _ _).symm

/-- Claim C7. For every topic string, `read_doc` resolves it exactly in the
claimed order — case-sensitive exact stem, then first case-insensitive stem
equality, then first case-insensitive substring match in listing order — and
yields the not-found signal when no rule matches. -/
theorem read_doc_resolution_order (files : List DocFile) (topic : PyStr) :
    read_doc files topic = read_doc_spec files topic := by
  unfold read_doc read_doc_spec
  rw [choose_doc_eq_spec]

/-- Claim C8. A topic equal to the stem of an existing document round-trips:
`read_doc` returns exactly that file's stored text (stems are distinct in a
real directory, and the read must not raise). -/
theorem read_doc_exact_stem_roundtrip (files : List DocFile) (f : DocFile)
    (hnd : (files.map DocFile.stem).Nodup) (hf : f ∈ files) (hok : f.readOk = true) :
    read_doc files f.stem = some f.text := by
  have hsome : (files.find? (fun g => g.stem == f.stem)).isSome := by
    rw [List.find?_isSome]
    exact ⟨f, hf, by simp⟩
  obtain ⟨g, hg⟩ := Option.isSome_iff_exists.mp hsome
  have hgmem : g ∈ files := List.mem_of_find?_eq_some hg
  have hgstem : g.stem = f.stem := by simpa using List.find?_some hg
  have hgf : g = f := List.inj_on_of_nodup_map hnd hgmem hf hgstem
  unfold read_doc choose_doc
  rw [hg, hgf]
  simp [hok]

/-- A single-file docs directory. -/
def docFilesW : List DocFile :=
  [{ stem := "hooks".data, readOk := true, text := "hello".data, errMsg := [] }]

/-- Witness for claim C8 at the concrete one-file directory. -/
theorem read_doc_exact_stem_roundtrip_witness :
    read_doc docFilesW "hooks".data = some "hello".data :=
  read_doc_exact_stem_roundtrip docFilesW
    { stem := "hooks".data, readOk := true, text := "hello".data, errMsg := [] }
    (by decide) (by decide) rfl

/-! The topic branch of `main`, printing as structured messages (one
constructor per print statement). -/

/-- The prints of the topic branch of `main` (helper lines 325-356), in order:
the two mirror banners, a blank line, then either the document content plus
the official-page link, or the not-found report with its topic suggestions,
then the reading-from-local-docs footer. -/
inductive HMsg where
  | mirror
  | official
  | blank
  | content (s : PyStr)
  | officialPage (topic : PyStr)
  | notFound (topic : PyStr)
  | availableTopics
  | similarHeader
  | similarTopic (t : PyStr)
  | plainTopic (t : PyStr)
  | moreTopics (n : Nat)
  | readingLocal
deriving DecidableEq

/-- Python string comparison (lexicographic on code points), as used by
`sorted`. -/
def pyStrLt : PyStr → PyStr → Bool
  | [], [] => false
  | [], _ :: _ => true
  | _ :: _, [] => false
  | a :: as, b :: bs =>
    if a.toNat < b.toNat then true
    else if b.toNat < a.toNat then false
    else pyStrLt as bs

/-- Insertion step of the sort used to model Python `sorted`. -/
def insertSorted (x : PyStr) : List PyStr → List PyStr
  | [] => [x]
  | y :: ys => if pyStrLt y x then y :: insertSorted x ys else x :: y :: ys

/-- Sorting for `list_topics` (Python `sorted` on strings). -/
def sortPyStrs : List PyStr → List PyStr
  | [] => []
  | x :: xs => insertSorted x (sortPyStrs xs)

/-- helper `list_topics`: the sorted stems of the `*.md` files. -/
def list_topics (files : List DocFile) : List PyStr :=
  sortPyStrs (files.map DocFile.stem)

/-- helper line 342: the query and a topic overlap when either contains the
other case-insensitively. -/
def overlapB (topic t : PyStr) : Bool :=
  substr (pyLower topic) (pyLower t) || substr (pyLower t) (pyLower topic)

/-- helper line 342: the similar-topics list. -/
def similarOf (topics : List PyStr) (topic : PyStr) : List PyStr :=
  topics.filter (overlapB topic)

/-- helper lines 336-352: what the not-found branch prints after the error
line — the similar topics when any overlap, otherwise the first ten topics. -/
def notFoundMsgs (topics : List PyStr) (topic : PyStr) : List HMsg :=
  [HMsg.notFound topic, HMsg.blank, HMsg.availableTopics] ++
  (if topics.isEmpty then []
   else
     let similar := similarOf topics topic
     if !similar.isEmpty then
       HMsg.similarHeader :: (similar.take 5).map HMsg.similarTopic
     else
       (topics.take 10).map HMsg.plainTopic ++
         (if topics.length > 10 then [HMsg.moreTopics (topics.length - 10)] else []))

/-- helper lines 319-356, the topic branch of `main` without `-t`: banner,
then the document content (a non-empty string is truthy) with the
official-page link, or the not-found report; then the footer. -/
def main_topic_output (files : List DocFile) (topic : PyStr) : List HMsg :=
  let topics := list_topics files
  [HMsg.mirror, HMsg.official, HMsg.blank] ++
  (match read_doc files topic with
   | some c =>
     if c.isEmpty then notFoundMsgs topics topic
     else [HMsg.content c, HMsg.blank, HMsg.officialPage topic]
   | none => notFoundMsgs topics topic) ++
  [HMsg.blank, HMsg.readingLocal]

/-- A similar-topic suggestion can only come from the similar list. -/
theorem similarTopic_mem_notFoundMsgs {topics : List PyStr} {topic t : PyStr}
    (h : HMsg.similarTopic t ∈ notFoundMsgs topics topic) :
    t ∈ similarOf topics topic := by
  simp only [notFoundMsgs, List.mem_append, List.mem_cons, List.not_mem_nil] at h
  rcases h with (h | h | h | h) | h
  · exact absurd h (by simp)
  · exact absurd h (by simp)
  · exact absurd h (by simp)
  · exact absurd h (by simp)
  · split at h
    · simp at h
    · split at h
      · rcases List.mem_cons.mp h with h | h
        · exact absurd h (by simp)
        · obtain ⟨u, hu, he⟩ := List.mem_map.mp h
          obtain rfl : u = t := by simpa using he
          exact List.take_subset 5 _ hu
      · rw [List.mem_append] at h
        rcases h with h | h
        · obtain ⟨u, hu, he⟩ := List.mem_map.mp h
          simp at he
        · split at h <;> simp at h

/-- Claim C9. When none of the three resolution rules matches any document,
the helper prints the not-found report, and every similar-topic suggestion it
prints overlaps the query as a substring in one direction or the other
(case-insensitively). -/
theorem not_found_suggestions_overlap (files : List DocFile) (topic : PyStr)
    (h : ∀ f ∈ files, f.stem ≠ topic ∧ pyLower f.stem ≠ pyLower topic ∧
          substr (pyLower topic) (pyLower f.stem) = false) :
    HMsg.notFound topic ∈ main_topic_output files topic ∧
    ∀ t, HMsg.similarTopic t ∈ main_topic_output files topic → overlapB topic t = true := by
  have h1 : files.find? (fun f => f.stem == topic) = none := by
    rw [List.find?_eq_none]
    intro f hf
    simpa using (h f hf).1
  have h2 : files.find? (fun f => pyLower f.stem == pyLower topic) = none := by
    rw [List.find?_eq_none]
    intro f hf
    simpa using (h f hf).2.1
  have h3 : files.find? (fun f => substr (pyLower topic) (pyLower f.stem)) = none := by
    rw [List.find?_eq_none]
    intro f hf
    simp [(h f hf).2.2]
  have hnone : read_doc files topic = none := by
    unfold read_doc choose_doc
    rw [h1, h2, h3]
  constructor
  · simp [main_topic_output, hnone, notFoundMsgs]
  · intro t ht
    simp only [main_topic_output, hnone, List.mem_append] at ht
    rcases ht with (ht | ht) | ht
    · simp at ht
    · exact (List.mem_filter.mp (similarTopic_mem_notFoundMsgs ht)).2
    · simp at ht

/-- Witness for claim C9: querying "zzz" against the one-file directory. -/
theorem not_found_suggestions_overlap_witness :
    HMsg.notFound "zzz".data ∈ main_topic_output docFilesW "zzz".data :=
  (not_found_suggestions_overlap docFilesW "zzz".data (by decide)).1

/-- Claim C10. When resolution selects a file whose read raises, `read_doc`
returns the error string rather than the not-found signal, and the helper
prints that string as document content followed by the official-page link,
never reaching the not-found/suggestions path. -/
theorem read_error_reported_as_content (files : List DocFile) (topic : PyStr) (f : DocFile)
    (hc : choose_doc files topic = some f) (hbad : f.readOk = false) :
    read_doc files topic = some ("Error reading file: ".data ++ f.errMsg) ∧
    HMsg.content ("Error reading file: ".data ++ f.errMsg) ∈ main_topic_output files topic ∧
    HMsg.officialPage topic ∈ main_topic_output files topic ∧
    HMsg.notFound topic ∉ main_topic_output files topic := by
  have hrd : read_doc files topic = some ("Error reading file: ".data ++ f.errMsg) := by
    unfold read_doc
    rw [hc]
    simp [hbad]
  have hne : ("Error reading file: ".data ++ f.errMsg).isEmpty = false := rfl
  refine ⟨hrd, ?_, ?_, ?_⟩ <;> simp [main_topic_output, hrd, hne]

/-- A one-file directory whose file cannot be read. -/
def docFilesBad : List DocFile :=
  [{ stem := "hooks".data, readOk := false, text := [], errMsg := "boom".data }]

/-- Witness for claim C10 at the concrete unreadable file. -/
theorem read_error_reported_as_content_witness :
    read_doc docFilesBad "hooks".data = some ("Error reading file: boom".data) :=
  (read_error_reported_as_content docFilesBad "hooks".data
    { stem := "hooks".data, readOk := false, text := [], errMsg := "boom".data }
    (by decide) rfl).1

/-! ## The settings file: JSON model, install.py `setup_hooks` (lines 327-376)
and uninstall.py `remove_hooks` (lines 126-168) -/

/-- JSON values; objects are association lists in insertion order, as Python
dicts loaded by `json.load` behave. -/
inductive JVal where
  | null
  | bool (b : Bool)
  | num (n : Int)
  | str (s : PyStr)
  | arr (xs : List JVal)
  | obj (kvs : List (PyStr × JVal))

/-- Dict lookup (first occurrence; a loaded Python dict has unique keys). -/
def objLookup : List (PyStr × JVal) → PyStr → Option JVal
  | [], _ => none
  | (k', v) :: rest, k => if k' == k then some v else objLookup rest k

/-- Dict assignment: replace in place when the key is present, else append,
as Python `d[k] = v` behaves. -/
def objSet : List (PyStr × JVal) → PyStr → JVal → List (PyStr × JVal)
  | [], k, v => [(k, v)]
  | (k', v') :: rest, k, v =>
    if k' == k then (k, v) :: rest else (k', v') :: objSet rest k v

/-- Dict deletion, as Python `del d[k]` behaves. -/
def objDelete : List (PyStr × JVal) → PyStr → List (PyStr × JVal)
  | [], _ => []
  | (k', v) :: rest, k =>
    if k' == k then objDelete rest k else (k', v) :: objDelete rest k

/-- `settings.get(k)` on a JSON value known to be an object. -/
def jGet : JVal → PyStr → Option JVal
  | JVal.obj kvs, k => objLookup kvs k
  | _, _ => none

/-- Assignment at an absent key looks up to the assigned value. -/
theorem objLookup_objSet_self (kvs : List (PyStr × JVal)) (k : PyStr) (v : JVal) :
    objLookup (objSet kvs k v) k = some v := by
  induction kvs with
  | nil => simp [objSet, objLookup]
  | cons kv rest ih =>
    obtain ⟨k', v'⟩ := kv
    by_cases h : (k' == k) = true
    · simp [objSet, objLookup, h]
    · simp only [objSet, objLookup, h]
      simp only [Bool.false_eq_true, if_false, ih]

/-- Assignment leaves every other key's lookup unchanged. -/
theorem objLookup_objSet_ne (kvs : List (PyStr × JVal)) (k q : PyStr) (v : JVal)
    (hq : q ≠ k) : objLookup (objSet kvs k v) q = objLookup kvs q := by
  have hkq : (k == q) = false := beq_eq_false_iff_ne.mpr (fun h => hq h.symm)
  induction kvs with
  | nil => simp [objSet, objLookup, hkq]
  | cons kv rest ih =>
    obtain ⟨k', v'⟩ := kv
    by_cases h : (k' == k) = true
    · have hk' : k' = k := by simpa using h
      subst hk'
      simp [objSet, objLookup, hkq]
    · simp only [objSet, objLookup, h, Bool.false_eq_true, if_false, ih]

/-- Deletion makes its key's lookup come up empty. -/
theorem objLookup_objDelete_self (kvs : List (PyStr × JVal)) (k : PyStr) :
    objLookup (objDelete kvs k) k = none := by
  induction kvs with
  | nil => simp [objDelete, objLookup]
  | cons kv rest ih =>
    obtain ⟨k', v'⟩ := kv
    by_cases h : (k' == k) = true
    · simp [objDelete, h, ih]
    · simp [objDelete, objLookup, h, ih]

/-- Deletion leaves every other key's lookup unchanged. -/
theorem objLookup_objDelete_ne (kvs : List (PyStr × JVal)) (k q : PyStr)
    (hq : q ≠ k) : objLookup (objDelete kvs k) q = objLookup kvs q := by
  induction kvs with
  | nil => simp [objDelete]
  | cons kv rest ih =>
    obtain ⟨k', v'⟩ := kv
    by_cases h : (k' == k) = true
    · have hk' : k' = k := by simpa using h
      have hk'q : k' ≠ q := fun hh => hq (hh.symm.trans hk')
      simp [objDelete, objLookup, h, hk'q, ih]
    · simp [objDelete, objLookup, h, ih]

/-- If deleting a key empties the dict, every other key was already absent. -/
theorem objLookup_eq_none_of_objDelete_nil (kvs : List (PyStr × JVal)) (k q : PyStr)
    (hq : q ≠ k) (h : objDelete kvs k = []) : objLookup kvs q = none := by
  induction kvs with
  | nil => rfl
  | cons kv rest ih =>
    obtain ⟨k', v'⟩ := kv
    by_cases hk : (k' == k) = true
    · have hdel : objDelete rest k = [] := by simpa [objDelete, hk] using h
      have hk' : k' = k := by simpa using hk
      have hk'q : k' ≠ q := fun hh => hq (hh.symm.trans hk')
      simp [objLookup, hk'q, ih hdel]
    · simp [objDelete, hk] at h

/-- `hook.get('command', '')` for a hook object (the settings well-formedness
predicate below rules out the shapes on which the Python code would raise). -/
def hookCmdStr (h : JVal) : PyStr :=
  match h with
  | JVal.obj kvs =>
    (match objLookup kvs "command".data with
     | some (JVal.str s) => s
     | _ => [])
  | _ => []

/-- `hook_entry.get('hooks', [])` for a PreToolUse entry. -/
def entryHookList (e : JVal) : List JVal :=
  match e with
  | JVal.obj kvs =>
    (match objLookup kvs "hooks".data with
     | some (JVal.arr hs) => hs
     | _ => [])
  | _ => []

/-- The selection predicate shared by install.py lines 357-361 and uninstall.py
lines 143-147: some hook of the entry has 'claude-code-docs' in its command. -/
def entryHasMarker (e : JVal) : Bool :=
  (entryHookList e).any (fun h => substr "claude-code-docs".data (hookCmdStr h))

/-- A hook object the Python code can process without raising: if a 'command'
key is present its value is a string. -/
def hookWF (h : JVal) : Bool :=
  match h with
  | JVal.obj kvs =>
    (match objLookup kvs "command".data with
     | none => true
     | some (JVal.str _) => true
     | some _ => false)
  | _ => false

/-- A PreToolUse entry the Python code can process without raising: an object
whose 'hooks' value, if present, is an array of well-formed hooks. -/
def entryWF (e : JVal) : Bool :=
  match e with
  | JVal.obj kvs =>
    (match objLookup kvs "hooks".data with
     | none => true
     | some (JVal.arr hs) => hs.all hookWF
     | some _ => false)
  | _ => false

/-- A settings value the Python code can process without raising and then
rewrite: an object whose 'hooks' value, if present, is an object whose
'PreToolUse' value, if present, is an array of well-formed entries. On any
other shape both scripts raise before writing the settings file, leaving it
unchanged. -/
def settingsWF (s : JVal) : Bool :=
  match s with
  | JVal.obj kvs =>
    (match objLookup kvs "hooks".data with
     | none => true
     | some (JVal.obj hkvs) =>
       (match objLookup hkvs "PreToolUse".data with
        | none => true
        | some (JVal.arr entries) => entries.all entryWF
        | some _ => false)
     | some _ => false)
  | _ => false

/-- The hook entry appended by install.py lines 364-370. -/
def newHookEntry (cmd : PyStr) : JVal :=
  JVal.obj [("matcher".data, JVal.str "Read".data),
            ("hooks".data,
             JVal.arr [JVal.obj [("type".data, JVal.str "command".data),
                                 ("command".data, JVal.str cmd)]])]

/-- install.py `setup_hooks`, as a transform on the parsed settings: ensure
`hooks` and `hooks.PreToolUse` exist, drop every entry whose command carries
the claude-code-docs marker, and append the fresh hook entry. Each arm is the
Python flow specialized to that settings shape; shapes on which the Python
code raises before `json.dump` return the input unchanged. -/
def setup_hooks_transform (s : JVal) (cmd : PyStr) : JVal :=
  match s with
  | JVal.obj kvs =>
    (match objLookup kvs "hooks".data with
     | none =>
       -- settings['hooks'] = {}; settings['hooks']['PreToolUse'] = [];
       -- filter of [] is []; append the new entry
       JVal.obj (objSet kvs "hooks".data
         (JVal.obj [("PreToolUse".data, JVal.arr [newHookEntry cmd])]))
     | some (JVal.obj hkvs) =>
       (match objLookup hkvs "PreToolUse".data with
        | none =>
          -- settings['hooks']['PreToolUse'] = []; filter; append
          JVal.obj (objSet kvs "hooks".data
            (JVal.obj (objSet hkvs "PreToolUse".data (JVal.arr [newHookEntry cmd]))))
        | some (JVal.arr entries) =>
          JVal.obj (objSet kvs "hooks".data
            (JVal.obj (objSet hkvs "PreToolUse".data
              (JVal.arr ((entries.filter (fun x => !entryHasMarker x)) ++ [newHookEntry cmd])))))
        | some _ => s)
     | some _ => s)
  | _ => s

/-- uninstall.py `remove_hooks`, as a transform on the parsed settings: when
`hooks.PreToolUse` is present, drop every entry whose command carries the
marker, delete `PreToolUse` when the list becomes empty and `hooks` when it
becomes empty, then write; on every other shape nothing is written. -/
def remove_hooks_settings (s : JVal) : JVal :=
  match s with
  | JVal.obj kvs =>
    (match objLookup kvs "hooks".data with
     | some (JVal.obj hkvs) =>
       (match objLookup hkvs "PreToolUse".data with
        | some (JVal.arr entries) =>
          let entries' := entries.filter (fun x => !entryHasMarker x)
          let hkvs' :=
            if entries'.isEmpty then objDelete hkvs "PreToolUse".data
            else objSet hkvs "PreToolUse".data (JVal.arr entries')
          if hkvs'.isEmpty then JVal.obj (objDelete kvs "hooks".data)
          else JVal.obj (objSet kvs "hooks".data (JVal.obj hkvs'))
        | _ => s)
     | _ => s)
  | _ => s

/-- Whether `remove_hooks` reaches its `json.dump` (uninstall.py line 141). -/
def remove_hooks_wrote (s : JVal) : Bool :=
  match s with
  | JVal.obj kvs =>
    (match objLookup kvs "hooks".data with
     | some (JVal.obj hkvs) =>
       (match objLookup hkvs "PreToolUse".data with
        | some (JVal.arr _) => true
        | _ => false)
     | _ => false)
  | _ => false

/-- The entries of the 'hooks' object of a settings value ([] when absent). -/
def hooksEntriesOf (s : JVal) : List (PyStr × JVal) :=
  match jGet s "hooks".data with
  | some (JVal.obj hkvs) => hkvs
  | _ => []

/-- The 'hooks.PreToolUse' list of a settings value ([] when absent). -/
def preToolUseOf (s : JVal) : List JVal :=
  match objLookup (hooksEntriesOf s) "PreToolUse".data with
  | some (JVal.arr entries) => entries
  | _ => []

/-- Assignment never empties a dict. -/
theorem objSet_ne_nil (kvs : List (PyStr × JVal)) (k : PyStr) (v : JVal) :
    objSet kvs k v ≠ [] := by
  cases kvs with
  | nil => simp [objSet]
  | cons kv rest =>
    obtain ⟨k', v'⟩ := kv
    by_cases h : (k' == k) = true <;> simp [objSet, h]

/-- The installer's hook upsert leaves every top-level key other than 'hooks'
unchanged. -/
theorem setup_hooks_frame_top (s : JVal) (cmd : PyStr) (k : PyStr)
    (hk : k ≠ "hooks".data) :
    jGet (setup_hooks_transform s cmd) k = jGet s k := by
  cases s with
  | obj kvs =>
    cases hh : objLookup kvs "hooks".data with
    | none =>
      simp only [setup_hooks_transform, hh]
      simp [jGet, objLookup_objSet_ne _ _ _ _ hk]
    | some v =>
      cases v with
      | obj hkvs =>
        cases hp : objLookup hkvs "PreToolUse".data with
        | none =>
          simp only [setup_hooks_transform, hh, hp]
          simp [jGet, objLookup_objSet_ne _ _ _ _ hk]
        | some w =>
          cases w with
          | arr entries =>
            simp only [setup_hooks_transform, hh, hp]
            simp [jGet, objLookup_objSet_ne _ _ _ _ hk]
          | null => simp [setup_hooks_transform, hh, hp]
          | bool b => simp [setup_hooks_transform, hh, hp]
          | num n => simp [setup_hooks_transform, hh, hp]
          | str t => simp [setup_hooks_transform, hh, hp]
          | obj o => simp [setup_hooks_transform, hh, hp]
      | null => simp [setup_hooks_transform, hh]
      | bool b => simp [setup_hooks_transform, hh]
      | num n => simp [setup_hooks_transform, hh]
      | str t => simp [setup_hooks_transform, hh]
      | arr xs => simp [setup_hooks_transform, hh]
  | null => rfl
  | bool b => rfl
  | num n => rfl
  | str t => rfl
  | arr xs => rfl

/-- The installer's hook upsert leaves every entry of 'hooks' other than
'PreToolUse' unchanged. -/
theorem setup_hooks_frame_entries (s : JVal) (cmd : PyStr) (k : PyStr)
    (hk : k ≠ "PreToolUse".data) :
    objLookup (hooksEntriesOf (setup_hooks_transform s cmd)) k =
      objLookup (hooksEntriesOf s) k := by
  have hpk : ("PreToolUse".data == k) = false :=
    beq_eq_false_iff_ne.mpr (fun h => hk h.symm)
  cases s with
  | obj kvs =>
    cases hh : objLookup kvs "hooks".data with
    | none =>
      simp only [setup_hooks_transform, hh]
      simp [hooksEntriesOf, jGet, objLookup_objSet_self, hh, objLookup, hpk]
    | some v =>
      cases v with
      | obj hkvs =>
        cases hp : objLookup hkvs "PreToolUse".data with
        | none =>
          simp only [setup_hooks_transform, hh, hp]
          simp [hooksEntriesOf, jGet, objLookup_objSet_self, hh,
                objLookup_objSet_ne _ _ _ _ hk]
        | some w =>
          cases w with
          | arr entries =>
            simp only [setup_hooks_transform, hh, hp]
            simp [hooksEntriesOf, jGet, objLookup_objSet_self, hh,
                  objLookup_objSet_ne _ _ _ _ hk]
          | null => simp [setup_hooks_transform, hh, hp]
          | bool b => simp [setup_hooks_transform, hh, hp]
          | num n => simp [setup_hooks_transform, hh, hp]
          | str t => simp [setup_hooks_transform, hh, hp]
          | obj o => simp [setup_hooks_transform, hh, hp]
      | null => simp [setup_hooks_transform, hh]
      | bool b => simp [setup_hooks_transform, hh]
      | num n => simp [setup_hooks_transform, hh]
      | str t => simp [setup_hooks_transform, hh]
      | arr xs => simp [setup_hooks_transform, hh]
  | null => rfl
  | bool b => rfl
  | num n => rfl
  | str t => rfl
  | arr xs => rfl

/-- The uninstaller's hook removal leaves every top-level key other than
'hooks' unchanged. -/
theorem remove_hooks_frame_top (s : JVal) (k : PyStr) (hk : k ≠ "hooks".data) :
    jGet (remove_hooks_settings s) k = jGet s k := by
  cases s with
  | obj kvs =>
    cases hh : objLookup kvs "hooks".data with
    | none => simp [remove_hooks_settings, hh]
    | some v =>
      cases v with
      | obj hkvs =>
        cases hp : objLookup hkvs "PreToolUse".data with
        | none => simp [remove_hooks_settings, hh, hp]
        | some w =>
          cases w with
          | arr entries =>
            simp only [remove_hooks_settings, hh, hp]
            split <;> split <;>
              · simp only [jGet]
                first
                  | exact objLookup_objDelete_ne kvs "hooks".data k hk
                  | exact objLookup_objSet_ne kvs "hooks".data k _ hk
          | null => simp [remove_hooks_settings, hh, hp]
          | bool b => simp [remove_hooks_settings, hh, hp]
          | num n => simp [remove_hooks_settings, hh, hp]
          | str t => simp [remove_hooks_settings, hh, hp]
          | obj o => simp [remove_hooks_settings, hh, hp]
      | null => simp [remove_hooks_settings, hh]
      | bool b => simp [remove_hooks_settings, hh]
      | num n => simp [remove_hooks_settings, hh]
      | str t => simp [remove_hooks_settings, hh]
      | arr xs => simp [remove_hooks_settings, hh]
  | null => rfl
  | bool b => rfl
  | num n => rfl
  | str t => rfl
  | arr xs => rfl

/-- The uninstaller's hook removal leaves every entry of 'hooks' other than
'PreToolUse' unchanged (when the emptied 'hooks' object is deleted, it held
nothing but 'PreToolUse'). -/
theorem remove_hooks_frame_entries (s : JVal) (k : PyStr)
    (hk : k ≠ "PreToolUse".data) :
    objLookup (hooksEntriesOf (remove_hooks_settings s)) k =
      objLookup (hooksEntriesOf s) k := by
  cases s with
  | obj kvs =>
    cases hh : objLookup kvs "hooks".data with
    | none => simp [remove_hooks_settings, hh]
    | some v =>
      cases v with
      | obj hkvs =>
        cases hp : objLookup hkvs "PreToolUse".data with
        | none => simp [remove_hooks_settings, hh, hp]
        | some w =>
          cases w with
          | arr entries =>
            simp only [remove_hooks_settings, hh, hp]
            by_cases hemp : (entries.filter (fun x => !entryHasMarker x)).isEmpty = true
            · simp only [hemp, if_true]
              by_cases hdel : (objDelete hkvs "PreToolUse".data).isEmpty = true
              · have hdelnil : objDelete hkvs "PreToolUse".data = [] := by
                  cases hcs : objDelete hkvs "PreToolUse".data with
                  | nil => rfl
                  | cons a l => rw [hcs] at hdel; simp at hdel
                have hnone : objLookup hkvs k = none :=
                  objLookup_eq_none_of_objDelete_nil hkvs "PreToolUse".data k hk hdelnil
                simp [hdel, hooksEntriesOf, jGet, objLookup_objDelete_self, hh,
                      objLookup, hnone]
              · simp only [if_neg hdel]
                simp [hooksEntriesOf, jGet, objLookup_objSet_self, hh,
                      objLookup_objDelete_ne _ _ _ hk]
            · simp only [if_neg hemp]
              have hsetne : (objSet hkvs "PreToolUse".data
                  (JVal.arr (entries.filter (fun x => !entryHasMarker x)))).isEmpty = false :=
                isEmpty_false_of_ne_nil (objSet_ne_nil _ _ _)
              simp [hsetne, hooksEntriesOf, jGet, objLookup_objSet_self, hh,
                    objLookup_objSet_ne _ _ _ _ hk]
          | null => simp [remove_hooks_settings, hh, hp]
          | bool b => simp [remove_hooks_settings, hh, hp]
          | num n => simp [remove_hooks_settings, hh, hp]
          | str t => simp [remove_hooks_settings, hh, hp]
          | obj o => simp [remove_hooks_settings, hh, hp]
      | null => simp [remove_hooks_settings, hh]
      | bool b => simp [remove_hooks_settings, hh]
      | num n => simp [remove_hooks_settings, hh]
      | str t => simp [remove_hooks_settings, hh]
      | arr xs => simp [remove_hooks_settings, hh]
  | null => rfl
  | bool b => rfl
  | num n => rfl
  | str t => rfl
  | arr xs => rfl

/-- Claim C6. Both settings-file mutations — the installer's hook upsert and
the uninstaller's hook removal — preserve all structure outside the
`hooks.PreToolUse` list: every top-level key other than 'hooks', and every
entry of 'hooks' other than 'PreToolUse', looks up unchanged in the rewritten
settings. -/
theorem settings_mutations_preserve_frame (s : JVal) (cmd : PyStr) :
    (∀ k, k ≠ "hooks".data → jGet (setup_hooks_transform s cmd) k = jGet s k) ∧
    (∀ k, k ≠ "PreToolUse".data →
      objLookup (hooksEntriesOf (setup_hooks_transform s cmd)) k =
        objLookup (hooksEntriesOf s) k) ∧
    (∀ k, k ≠ "hooks".data → jGet (remove_hooks_settings s) k = jGet s k) ∧
    (∀ k, k ≠ "PreToolUse".data →
      objLookup (hooksEntriesOf (remove_hooks_settings s)) k =
        objLookup (hooksEntriesOf s) k) :=
  ⟨fun k hk => setup_hooks_frame_top s cmd k hk,
   fun k hk => setup_hooks_frame_entries s cmd k hk,
   fun k hk => remove_hooks_frame_top s k hk,
   fun k hk => remove_hooks_frame_entries s k hk⟩

/-- A settings object with an unrelated top-level key and an unrelated hooks
entry. -/
def settingsSample : JVal :=
  JVal.obj [("env".data, JVal.str "x".data),
            ("hooks".data,
             JVal.obj [("PreToolUse".data, JVal.arr []),
                       ("PostToolUse".data, JVal.str "keep".data)])]

/-- Witness for claim C6 at the concrete settings object. -/
theorem settings_mutations_preserve_frame_witness :
    jGet (setup_hooks_transform settingsSample "cmd".data) "env".data =
      jGet settingsSample "env".data ∧
    objLookup (hooksEntriesOf (remove_hooks_settings settingsSample)) "PostToolUse".data =
      objLookup (hooksEntriesOf settingsSample) "PostToolUse".data :=
  ⟨(settings_mutations_preserve_frame settingsSample "cmd".data).1 "env".data (by decide),
   (settings_mutations_preserve_frame settingsSample "cmd".data).2.2.2 "PostToolUse".data
     (by decide)⟩

/-! ## uninstall.py: `remove_directories` (lines 171-194) and the
post-confirmation flow of `main` (lines 217-241) -/

/-- Entries surviving the uninstaller's filter never carry the marker. -/
theorem preToolUse_after_remove (s : JVal) :
    ∀ x ∈ preToolUseOf (remove_hooks_settings s), entryHasMarker x = false := by
  cases s with
  | obj kvs =>
    cases hh : objLookup kvs "hooks".data with
    | none => simp [remove_hooks_settings, hh, preToolUseOf, hooksEntriesOf, jGet, objLookup]
    | some v =>
      cases v with
      | obj hkvs =>
        cases hp : objLookup hkvs "PreToolUse".data with
        | none =>
          simp [remove_hooks_settings, hh, hp, preToolUseOf, hooksEntriesOf, jGet, objLookup]
        | some w =>
          cases w with
          | arr entries =>
            simp only [remove_hooks_settings, hh, hp]
            by_cases hemp : (entries.filter (fun x => !entryHasMarker x)).isEmpty = true
            · simp only [hemp, if_true]
              by_cases hdel : (objDelete hkvs "PreToolUse".data).isEmpty = true
              · simp only [hdel, if_true]
                simp [preToolUseOf, hooksEntriesOf, jGet, objLookup_objDelete_self, objLookup]
              · simp only [if_neg hdel]
                simp [preToolUseOf, hooksEntriesOf, jGet, objLookup_objSet_self,
                      objLookup_objDelete_self, objLookup]
            · simp only [if_neg hemp]
              have hne : (objSet hkvs "PreToolUse".data
                  (JVal.arr (entries.filter (fun x => !entryHasMarker x)))).isEmpty = false :=
                isEmpty_false_of_ne_nil (objSet_ne_nil _ _ _)
              simp only [hne, Bool.false_eq_true, if_false]
              simp only [preToolUseOf, hooksEntriesOf, jGet, objLookup_objSet_self]
              intro x hx
              have := List.mem_filter.mp hx
              simpa using this.2
          | null =>
            simp [remove_hooks_settings, hh, hp, preToolUseOf, hooksEntriesOf, jGet, objLookup]
          | bool b =>
            simp [remove_hooks_settings, hh, hp, preToolUseOf, hooksEntriesOf, jGet, objLookup]
          | num n =>
            simp [remove_hooks_settings, hh, hp, preToolUseOf, hooksEntriesOf, jGet, objLookup]
          | str t =>
            simp [remove_hooks_settings, hh, hp, preToolUseOf, hooksEntriesOf, jGet, objLookup]
          | obj o =>
            simp [remove_hooks_settings, hh, hp, preToolUseOf, hooksEntriesOf, jGet, objLookup]
      | null => simp [remove_hooks_settings, hh, preToolUseOf, hooksEntriesOf, jGet, objLookup]
      | bool b => simp [remove_hooks_settings, hh, preToolUseOf, hooksEntriesOf, jGet, objLookup]
      | num n => simp [remove_hooks_settings, hh, preToolUseOf, hooksEntriesOf, jGet, objLookup]
      | str t => simp [remove_hooks_settings, hh, preToolUseOf, hooksEntriesOf, jGet, objLookup]
      | arr xs => simp [remove_hooks_settings, hh, preToolUseOf, hooksEntriesOf, jGet, objLookup]
  | null => simp [remove_hooks_settings, preToolUseOf, hooksEntriesOf, jGet, objLookup]
  | bool b => simp [remove_hooks_settings, preToolUseOf, hooksEntriesOf, jGet, objLookup]
  | num n => simp [remove_hooks_settings, preToolUseOf, hooksEntriesOf, jGet, objLookup]
  | str t => simp [remove_hooks_settings, preToolUseOf, hooksEntriesOf, jGet, objLookup]
  | arr xs => simp [remove_hooks_settings, preToolUseOf, hooksEntriesOf, jGet, objLookup]

/-- One discovered installation directory: its path (as a display name), and
the filesystem/git facts `remove_directories` consults about it. -/
structure DirInfo where
  name : PyStr
  dirExists : Bool
  isGit : Bool
  statusOk : Bool
  status : PyStr
  rmOk : Bool
deriving DecidableEq

/-- The observable actions of the uninstaller's post-confirmation flow.
`preservedDir` both skips the removal and stands for the
"[WARNING] Preserved ... (has uncommitted changes)" report;
`removedDir` is the `shutil.rmtree` call with its "[OK] Removed" report. -/
inductive UAct where
  | removedCommandFile
  | commandUnlinkFailed
  | backupSettings
  | wroteSettings
  | removedDir (n : PyStr)
  | preservedDir (n : PyStr)
  | rmFailed (n : PyStr)
deriving DecidableEq

/-- uninstall.py lines 177-194, per directory: skip missing paths; a git
working copy whose porcelain status query succeeds with non-empty output is
preserved, anything else is deleted (a failing delete prints a warning). -/
def dirActs (d : DirInfo) : List UAct :=
  if d.dirExists = false then []
  else
    let hasChanges := d.isGit && d.statusOk && !d.status.isEmpty
    if hasChanges then [UAct.preservedDir d.name]
    else if d.rmOk then [UAct.removedDir d.name]
    else [UAct.rmFailed d.name]

/-- uninstall.py `remove_directories`. -/
def remove_directories (dirs : List DirInfo) : List UAct :=
  (dirs.map dirActs).flatten

/-- Environment for one uninstaller run: the confirmation reply, the
command-file and settings-file state, the parsed settings, and the discovered
installation directories. -/
structure UninstEnv where
  response : PyStr
  commandFileExists : Bool
  unlinkOk : Bool
  settingsFileExists : Bool
  settings : JVal
  dirs : List DirInfo

/-- Result of an uninstaller run: whether it was cancelled, the actions in
order, and the settings content on disk afterwards. -/
structure UOut where
  cancelled : Bool
  acts : List UAct
  settingsFinal : JVal

/-- uninstall.py `main` lines 217-241: confirm (`response.lower() != 'y'`
cancels), then remove the command file, back up and rewrite the settings, and
walk the directories. -/
def uninstall_main (e : UninstEnv) : UOut :=
  if pyLower e.response == "y".data then
    let cmdActs :=
      if e.commandFileExists then
        (if e.unlinkOk then [UAct.removedCommandFile] else [UAct.commandUnlinkFailed])
      else []
    let hookActs :=
      if e.settingsFileExists then
        UAct.backupSettings ::
          (if remove_hooks_wrote e.settings then [UAct.wroteSettings] else [])
      else []
    { cancelled := false,
      acts := cmdActs ++ hookActs ++ remove_directories e.dirs,
      settingsFinal :=
        if e.settingsFileExists then remove_hooks_settings e.settings else e.settings }
  else
    { cancelled := true, acts := [], settingsFinal := e.settings }

/-- Membership in a conditional singleton collapses to the non-empty branch. -/
theorem mem_ite_nil {α : Type} {c : Prop} [Decidable c] {a : α} {l : List α}
    (h : a ∈ if c then l else []) : a ∈ l := by
  split at h
  · exact h
  · simp at h

/-- A `removedDir` action identifies its directory and certifies it was seen
as change-free. -/
theorem removedDir_mem_dirActs {d : DirInfo} {n : PyStr}
    (h : UAct.removedDir n ∈ dirActs d) :
    n = d.name ∧ (d.isGit && d.statusOk && !d.status.isEmpty) = false := by
  by_cases hex : d.dirExists = false
  · simp [dirActs, hex] at h
  · by_cases hch : (d.isGit && d.statusOk && !d.status.isEmpty) = true
    · simp [dirActs, hex, hch] at h
    · have hch' : (d.isGit && d.statusOk && !d.status.isEmpty) = false := by
        cases hb : (d.isGit && d.statusOk && !d.status.isEmpty)
        · rfl
        · exact absurd hb hch
      by_cases hrm : d.rmOk = true
      · refine ⟨?_, hch'⟩
        simp [dirActs, hex, hch', hrm] at h
        exact h
      · simp [dirActs, hex, hch', hrm] at h

/-- Claim C5. When the uninstaller proceeds past the confirmation: every
discovered directory that exists and is a git working copy with non-empty
porcelain status is preserved (and reported so by the preserve action) and
never deleted; every other existing discovered directory is deleted; the
command-registration file is removed; and no entry whose command carries the
claude-code-docs marker survives in the rewritten settings' PreToolUse list —
regardless of which directories were preserved. The hypotheses fix the
environment the claim presupposes: valid parsable settings, an available git
status for each repository, deletable directories, an existing command file,
and distinct directory paths. -/
theorem uninstall_preserves_dirty_dirs (e : UninstEnv)
    (hresp : pyLower e.response = "y".data)
    (hsf : e.settingsFileExists = true)
    (hwf : settingsWF e.settings = true)
    (hstat : ∀ d ∈ e.dirs, d.isGit = true → d.statusOk = true)
    (hrm : ∀ d ∈ e.dirs, d.rmOk = true)
    (hcf : e.commandFileExists = true) (hul : e.unlinkOk = true)
    (hnames : (e.dirs.map DirInfo.name).Nodup) :
    (∀ d ∈ e.dirs, d.dirExists = true → d.isGit = true → d.status ≠ [] →
      UAct.preservedDir d.name ∈ (uninstall_main e).acts ∧
      UAct.removedDir d.name ∉ (uninstall_main e).acts) ∧
    (∀ d ∈ e.dirs, d.dirExists = true → (d.isGit = false ∨ d.status = []) →
      UAct.removedDir d.name ∈ (uninstall_main e).acts) ∧
    UAct.removedCommandFile ∈ (uninstall_main e).acts ∧
    (∀ x ∈ preToolUseOf (uninstall_main e).settingsFinal, entryHasMarker x = false) := by
  have hresp' : (pyLower e.response == "y".data) = true := by simp [hresp]
  have hacts : (uninstall_main e).acts =
      [UAct.removedCommandFile] ++
      (UAct.backupSettings ::
        (if remove_hooks_wrote e.settings then [UAct.wroteSettings] else [])) ++
      remove_directories e.dirs := by
    simp [uninstall_main, hresp', hsf, hcf, hul]
  have hfinal : (uninstall_main e).settingsFinal = remove_hooks_settings e.settings := by
    simp [uninstall_main, hresp', hsf]
  refine ⟨?_, ?_, ?_, ?_⟩
  · intro d hd hex hgit hst
    have hsok := hstat d hd hgit
    have hch : (d.isGit && d.statusOk && !d.status.isEmpty) = true := by
      simp [hgit, hsok, isEmpty_false_of_ne_nil hst]
    have hda : dirActs d = [UAct.preservedDir d.name] := by
      simp [dirActs, hex, hch]
    constructor
    · rw [hacts]
      have hmemd : UAct.preservedDir d.name ∈ remove_directories e.dirs := by
        unfold remove_directories
        rw [List.mem_flatten]
        exact ⟨dirActs d, List.mem_map_of_mem _ hd, by rw [hda]; simp⟩
      simp [hmemd]
    · rw [hacts]
      intro hmem
      rcases List.mem_append.mp hmem with hmem | hmem
      · rcases List.mem_append.mp hmem with hmem | hmem
        · simp at hmem
        · rcases List.mem_cons.mp hmem with hmem | hmem
          · exact absurd hmem (by simp)
          · have := mem_ite_nil hmem
            simp at this
      · obtain ⟨ld, hld, hxin⟩ := List.mem_flatten.mp hmem
        obtain ⟨d', hd', rfl⟩ := List.mem_map.mp hld
        obtain ⟨hn, hch'⟩ := removedDir_mem_dirActs hxin
        have hdd : d' = d := List.inj_on_of_nodup_map hnames hd' hd hn.symm
        rw [hdd] at hch'
        exact absurd (hch.symm.trans hch') (by decide)
  · intro d hd hex hor
    have hch : (d.isGit && d.statusOk && !d.status.isEmpty) = false := by
      rcases hor with hgitf | hstnil
      · simp [hgitf]
      · simp [hstnil]
    have hda : dirActs d = [UAct.removedDir d.name] := by
      simp [dirActs, hex, hch, hrm d hd]
    rw [hacts]
    have hmemd : UAct.removedDir d.name ∈ remove_directories e.dirs := by
      unfold remove_directories
      rw [List.mem_flatten]
      exact ⟨dirActs d, List.mem_map_of_mem _ hd, by rw [hda]; simp⟩
    simp [hmemd]
  · rw [hacts]
    simp
  · rw [hfinal]
    exact preToolUse_after_remove e.settings

/-- A discovered mirror directory with uncommitted changes. -/
def dirtyDir : DirInfo :=
  { name := "old".data, dirExists := true, isGit := true, statusOk := true,
    status := " M x".data, rmOk := true }

/-- A confirmed uninstaller run over one dirty directory and the sample
settings. -/
def uninstEnvW : UninstEnv :=
  { response := "y".data, commandFileExists := true, unlinkOk := true,
    settingsFileExists := true, settings := settingsSample, dirs := [dirtyDir] }

/-- Witness for claim C5 at the concrete confirmed run. -/
theorem uninstall_preserves_dirty_dirs_witness :
    UAct.removedCommandFile ∈ (uninstall_main uninstEnvW).acts :=
  (uninstall_preserves_dirty_dirs uninstEnvW rfl rfl rfl
    (by decide) (by decide) rfl rfl (by decide)).2.2.1
